import Mathlib

/-!
Verification development for the LKQ Pick Your Part inventory aggregator.

The definitions below are a shallow embedding of the aggregation core found in
`src/server/api/routers/vehicles.ts`, `src/server/api/routers/locations.ts` and
`src/lib/constants.ts`.  JavaScript strings are modelled as `List Char` (with
`String` wrappers at the API boundary), JavaScript numbers that can be `NaN`
are modelled as `Option Int` (`none` = `NaN`), fallible computations are
modelled with `Except`, and the HTML documents handed to cheerio are modelled
at the granularity the parser reads them: a document is the list of its
`.pypvi_resultRow` elements, each row carrying exactly the attributes and text
fragments the parser extracts.
-/

/-- The whitespace test of the source's `isWhitespace` helper
(`vehicles.ts:288`): exactly space, tab, newline, carriage return,
form feed and vertical tab.  Note this does NOT include the
non-breaking space `U+00A0`. -/
def isWhitespace (c : Char) : Bool :=
  c = ' ' || c = '\t' || c = '\n' || c = '\r' || c = '\x0c' || c = '\x0b'

/-- Character class removed by JavaScript's `String.prototype.trim`
(ECMAScript `WhiteSpace` and `LineTerminator`): the six ASCII whitespace
characters plus NBSP, BOM, the Unicode space separators and the line/paragraph
separators. -/
def isJsTrimWhitespace (c : Char) : Bool :=
  isWhitespace c || c = '\u00A0' || c = '\uFEFF' || c = '\u1680' ||
  ('\u2000' ≤ c && c ≤ '\u200A') || c = '\u2028' || c = '\u2029' ||
  c = '\u202F' || c = '\u205F' || c = '\u3000'

/-- Model of JavaScript `String.prototype.trim` on character lists. -/
def jsTrim (l : List Char) : List Char :=
  ((l.dropWhile isJsTrimWhitespace).reverse.dropWhile isJsTrimWhitespace).reverse

/-- Model of JavaScript `str.split(sep)` for a one-character separator:
keeps empty pieces, always returns at least one piece. -/
def jsSplitChar (sep : Char) : List Char → List (List Char)
  | [] => [[]]
  | c :: r =>
    if c = sep then [] :: jsSplitChar sep r
    else (jsSplitChar sep r).modifyHead (fun p => c :: p)

/-- Model of JavaScript `text.split("  ")` (two-space separator), as used by
the source's `splitOnMultipleSpaces` (`vehicles.ts:219`): non-overlapping
left-to-right matches of the two-character separator. -/
def jsSplitTwoSpaces : List Char → List (List Char)
  | ' ' :: ' ' :: r => [] :: jsSplitTwoSpaces r
  | c :: r => (jsSplitTwoSpaces r).modifyHead (fun p => c :: p)
  | [] => [[]]

/-- Decimal digit test used by the `parseInt` model. -/
def isDecDigit (c : Char) : Bool := '0' ≤ c && c ≤ '9'

/-- Hexadecimal digit test used by the `parseInt` model. -/
def isHexDigit (c : Char) : Bool :=
  isDecDigit c || ('a' ≤ c && c ≤ 'f') || ('A' ≤ c && c ≤ 'F')

/-- Numeric value of one hexadecimal digit. -/
def hexDigitVal (c : Char) : Nat :=
  if isDecDigit c then c.toNat - 48
  else if 'a' ≤ c && c ≤ 'f' then c.toNat - 87
  else c.toNat - 55

/-- Model of JavaScript `parseInt(s)` (radix unspecified, so decimal with a
`0x`/`0X` hexadecimal prefix): skip leading whitespace, optional sign, then
the longest digit prefix; `none` models the `NaN` result when no digit is
found. -/
def jsParseInt (l : List Char) : Option Int :=
  let t := l.dropWhile isJsTrimWhitespace
  let signed : Int × List Char :=
    match t with
    | '-' :: r => (-1, r)
    | '+' :: r => (1, r)
    | r => (1, r)
  match signed.2 with
  | '0' :: 'x' :: r =>
    let ds := r.takeWhile isHexDigit
    if ds = [] then none
    else some (signed.1 * (ds.foldl (fun a c => a * 16 + hexDigitVal c) 0 : Nat))
  | '0' :: 'X' :: r =>
    let ds := r.takeWhile isHexDigit
    if ds = [] then none
    else some (signed.1 * (ds.foldl (fun a c => a * 16 + hexDigitVal c) 0 : Nat))
  | r =>
    let ds := r.takeWhile isDecDigit
    if ds = [] then none
    else some (signed.1 * (ds.foldl (fun a c => a * 10 + (c.toNat - 48)) 0 : Nat))

/-- One step of the source's `normalizeWhitespace` reduce
(`vehicles.ts:305-312`): keep a non-whitespace character; replace a
whitespace character by a single space, but only when the accumulator is
non-empty and does not already end in a space. -/
def normalizeStep (acc : List Char) (c : Char) : List Char :=
  if ¬ isWhitespace c then acc ++ [c]
  else if acc ≠ [] ∧ acc.getLast? ≠ some ' ' then acc ++ [' ']
  else acc

/-- Model of the source's `normalizeWhitespace` (`vehicles.ts:302`):
fold `normalizeStep` over the characters, then `trim` the joined result. -/
def normalizeWhitespaceList (chars : List Char) : List Char :=
  jsTrim (chars.foldl normalizeStep [])

/-- State machine equivalent of `normalizeStep` used for proofs: the flag
records whether the output so far is non-empty and does not end in `' '`
(i.e. the last emitted character was a word character). -/
def norm2 : Bool → List Char → List Char
  | _, [] => []
  | inWord, c :: r =>
    if isWhitespace c then
      if inWord then ' ' :: norm2 false r else norm2 false r
    else c :: norm2 true r

/-- Tokenizer used on the specification side: the maximal runs of
characters that do not satisfy the separator predicate `p`; `acc` is the
reversed current run. -/
def wordsAux (p : Char → Bool) : List Char → List Char → List (List Char)
  | [], acc => if acc = [] then [] else [acc.reverse]
  | c :: r, acc =>
    if p c then
      if acc = [] then wordsAux p r [] else acc.reverse :: wordsAux p r []
    else wordsAux p r (c :: acc)

/-- The separator-run tokens of a character list. -/
def wordsP (p : Char → Bool) (l : List Char) : List (List Char) := wordsAux p l []

/-- Parsed title of one listing: the model year as produced by `parseInt`
(`none` models `NaN`), the make and the model. -/
structure TitleData where
  year : Option Int
  make : String
  model : String
  deriving DecidableEq, Repr

/-- Model of the source's `parseVehicleTitle` (`vehicles.ts:320-335`):
trim, normalize whitespace, split on single spaces, require at least three
parts; year is `parseInt` of the first part, make the second, model the
remaining parts joined by spaces. -/
def parseVehicleTitle (ymmText : String) : Option TitleData :=
  let normalizedText := normalizeWhitespaceList (jsTrim ymmText.data)
  if normalizedText = [] then none
  else
    let ymmParts := jsSplitChar ' ' normalizedText
    if ymmParts.length < 3 then none
    else
      some { year := jsParseInt (ymmParts.getD 0 ['0'])
             make := String.mk (ymmParts.getD 1 [])
             model := String.mk (List.intercalate [' '] (ymmParts.drop 2)) }

/-- Title parser written from the specification's words, parameterized by the
whitespace class: tokenize the trimmed title into runs separated by `p`
characters, require at least three tokens, year/make/model from the tokens. -/
def parseVehicleTitleTokens (p : Char → Bool) (ymmText : String) : Option TitleData :=
  let tokens := wordsP p (jsTrim ymmText.data)
  if tokens.length < 3 then none
  else
    some { year := jsParseInt (tokens.getD 0 ['0'])
           make := String.mk (tokens.getD 1 [])
           model := String.mk (List.intercalate [' '] (tokens.drop 2)) }

/-- The amended specification's tokenization: separators are exactly the six
ASCII whitespace characters recognized by the source. -/
def parseVehicleTitleAscii (ymmText : String) : Option TitleData :=
  parseVehicleTitleTokens isWhitespace ymmText

/-- Modelled from the spec: the claimed tokenization in which non-breaking
spaces also separate tokens ("including non-breaking variants"). -/
def parseVehicleTitleNbsp (ymmText : String) : Option TitleData :=
  parseVehicleTitleTokens (fun c => isWhitespace c || c = '\u00A0') ymmText

-- Search configuration constants from `src/lib/constants.ts`.
namespace SEARCH_CONFIG

def MAX_CONCURRENT_REQUESTS : Nat := 5

def REQUEST_TIMEOUT : Nat := 15000

def REQUEST_DELAY : Nat := 500

def MAX_RETRIES : Nat := 3

def BASE_RETRY_DELAY : Nat := 1000

def MAX_RETRY_DELAY : Nat := 10000

end SEARCH_CONFIG

-- API endpoint constants from `src/lib/constants.ts`.
namespace API_ENDPOINTS

def LKQ_BASE : String := "https://www.lkqpickyourpart.com"

def VEHICLE_INVENTORY : String :=
  "/DesktopModules/pyp_vehicleInventory/getVehicleInventory.aspx"

def LOCATION_PAGE : String := "/inventory/"

end API_ENDPOINTS

/-- The relative URL templates of a branch used by the vehicles router
(`location.urls.inventory/parts/prices`); the remaining templates of the
source's `Location.urls` object are not read by the modelled code. -/
structure LocationUrls where
  inventory : String
  parts : String
  prices : String
  deriving DecidableEq, Repr

/-- One upstream branch, with the fields of the source's `Location` record
that the modelled routers read or construct.  `distance` is modelled as an
integer. -/
structure Location where
  locationCode : String
  name : String
  displayName : String
  city : String
  state : String
  stateAbbr : String
  lat : Int
  lng : Int
  distance : Int
  urls : LocationUrls
  deriving DecidableEq, Repr

/-- One vehicle image: canonical URL, thumbnail URL and the positional type
tag produced by `getImageType`. -/
structure VehicleImage where
  url : String
  thumbnailUrl : String
  type : String
  deriving DecidableEq, Repr

/-- Yard position of a listing (the Section/Row/Space triple). -/
structure YardLocation where
  «section» : String
  row : String
  space : String
  deriving DecidableEq, Repr

/-- A parsed inventory entry before it is joined with its branch
(the source's `ParsedVehicleData`).  `year` is `Option Int` because the
source stores the raw result of `parseInt`, which can be `NaN` (`none`). -/
structure ParsedVehicleData where
  id : String
  year : Option Int
  make : String
  model : String
  color : String
  vin : String
  stockNumber : String
  availableDate : String
  yardLocation : YardLocation
  images : List VehicleImage
  detailsUrl : String
  partsUrl : String
  pricesUrl : String
  deriving DecidableEq, Repr

/-- A parsed entry joined with its owning branch (the source's `Vehicle`). -/
structure Vehicle extends ParsedVehicleData where
  location : Location
  deriving DecidableEq, Repr

/-- JavaScript truthiness filter for an optional string: `undefined` and the
empty string are both falsy. -/
def jsTruthyStr : Option String → Option String
  | some s => if s = "" then none else some s
  | none => none

/-- Substring test, modelling JavaScript `String.prototype.includes`. -/
def containsSub (pat : List Char) : List Char → Bool
  | [] => pat.isEmpty
  | c :: r => pat.isPrefixOf (c :: r) || containsSub pat r

/-- String-level `includes`. -/
def strIncludes (hay pat : String) : Bool := containsSub pat.data hay.data

/-- Model of JavaScript `String.prototype.replace` with a plain-string
pattern: replaces the first occurrence only. -/
def replaceFirst (pat : List Char) : List Char → List Char
  | [] => []
  | c :: r =>
    if pat.isPrefixOf (c :: r) then (c :: r).drop pat.length
    else c :: replaceFirst pat r

/-- Model of the source's `extractFieldValue` (`vehicles.ts:212`):
remove the label (first occurrence) and trim. -/
def extractFieldValue (text label : String) : String :=
  String.mk (jsTrim (replaceFirst label.data text.data))

/-- Model of the source's `splitOnMultipleSpaces` (`vehicles.ts:219`):
split on two consecutive spaces and keep the parts with non-blank content. -/
def splitOnMultipleSpaces (text : String) : List String :=
  ((jsSplitTwoSpaces text.data).filter (fun part => jsTrim part ≠ [])).map String.mk

/-- Model of the source's `parseYardLocation` (`vehicles.ts:226-252`). -/
def parseYardLocation (text : String) : YardLocation :=
  let locationParts := splitOnMultipleSpaces text
  { «section» :=
      ((locationParts.find? (fun part => strIncludes part "Section:")).map
        (fun part => extractFieldValue part "Section:")).getD ""
    row :=
      ((locationParts.find? (fun part => strIncludes part "Row:")).map
        (fun part => extractFieldValue part "Row:")).getD ""
    space :=
      ((locationParts.find? (fun part => strIncludes part "Space:")).map
        (fun part => extractFieldValue part "Space:")).getD "" }

/-- One `.pypvi_detailItem` fragment of a listing row: its text content and,
when the fragment contains a `time` element, that element's machine-readable
`datetime` attribute. -/
structure DetailItem where
  text : String
  timeDatetime : Option String
  deriving DecidableEq, Repr

/-- One `.pypvi_resultRow` element, at the granularity the parser reads it:
the row's `id` attribute, the text of its `.pypvi_ymm` link when that link
exists, its detail items, the `src` of its main `.pypvi_image img` when
present, and the `(href, data-thumb)` attribute pairs of its
`a[data-fancybox]` gallery links. -/
structure VehicleElement where
  id : Option String
  ymmText : Option String
  detailItems : List DetailItem
  mainImgSrc : Option String
  fancyboxLinks : List (Option String × Option String)
  deriving DecidableEq, Repr

/-- Result shape of the source's `parseVehicleDetails` (`vehicles.ts:257`). -/
structure VehicleDetails where
  color : String
  vin : String
  stockNumber : String
  yardLocation : YardLocation
  deriving DecidableEq, Repr

/-- Model of the source's `parseVehicleDetails` (`vehicles.ts:257-283`):
scan the detail-item texts for the labelled Color/VIN/Stock/Section
fragments, with the source's defaults for missing fields. -/
def parseVehicleDetails (element : VehicleElement) : VehicleDetails :=
  let details := element.detailItems.map (fun item => item.text)
  { color :=
      match details.find? (fun text => strIncludes text "Color:") with
      | some text => extractFieldValue text "Color:"
      | none => "Unknown"
    vin :=
      match details.find? (fun text => strIncludes text "VIN:") with
      | some text => extractFieldValue text "VIN:"
      | none => ""
    stockNumber :=
      match details.find? (fun text => strIncludes text "Stock #:") with
      | some text => extractFieldValue text "Stock #:"
      | none => ""
    yardLocation :=
      match details.find? (fun text => strIncludes text "Section:") with
      | some text => parseYardLocation text
      | none => { «section» := "", row := "", space := "" } }

/-- Model of the source's `getImageType` (`vehicles.ts:495-507`). -/
def getImageType (url : String) : String :=
  if strIncludes url "CAR-FRONT-LEFT" then "CAR-FRONT-LEFT"
  else if strIncludes url "CAR-BACK-LEFT" then "CAR-BACK-LEFT"
  else if strIncludes url "CAR-BACK-RIGHT" then "CAR-BACK-RIGHT"
  else if strIncludes url "CAR-FRONT-RIGHT" then "CAR-FRONT-RIGHT"
  else if strIncludes url "CAR-BACK" then "CAR-BACK"
  else if strIncludes url "CAR-FRONT" then "CAR-FRONT"
  else if strIncludes url "CAR-LEFT" then "CAR-LEFT"
  else if strIncludes url "CAR-RIGHT" then "CAR-RIGHT"
  else if strIncludes url "ENGINE" then "ENGINE"
  else if strIncludes url "INTERIOR" then "INTERIOR"
  else "OTHER"

/-- Split a character list at the first occurrence of `sep`, keeping the
remainder when the separator occurs. -/
def breakAtChar (sep : Char) : List Char → List Char × Option (List Char)
  | [] => ([], none)
  | c :: r =>
    if c = sep then ([], some r)
    else
      let rest := breakAtChar sep r
      (c :: rest.1, rest.2)

/-- Model of the source's `removeCropParameters` (`vehicles.ts:432-438`):
`new URL(url)` throws on a URL without a scheme (modelled by requiring the
substring "://"); otherwise the `w`, `h` and `mode` query parameters are
deleted and the URL reassembled. -/
def removeCropParameters (url : String) : Except Unit String :=
  if ¬ containsSub "://".data url.data then .error ()
  else
    let broken := breakAtChar '?' url.data
    match broken.2 with
    | none => .ok (String.mk broken.1)
    | some query =>
      let params := jsSplitChar '&' query
      let kept := params.filter (fun p =>
        let nm := (breakAtChar '=' p).1
        ¬ (nm = "w".data || nm = "h".data || nm = "mode".data))
      match kept with
      | [] => .ok (String.mk broken.1)
      | _ => .ok (String.mk (broken.1 ++ '?' :: List.intercalate ['&'] kept))

/-- Model of the source's `parseMainImage` (`vehicles.ts:443-455`): absent
element or falsy `src` yields no image; an unparsable `src` URL throws. -/
def parseMainImage (element : VehicleElement) : Except Unit (Option VehicleImage) :=
  match jsTruthyStr element.mainImgSrc with
  | none => .ok none
  | some imgSrc =>
    match removeCropParameters imgSrc with
    | .error e => .error e
    | .ok u => .ok (some { url := u, thumbnailUrl := imgSrc, type := getImageType imgSrc })

/-- Model of the source's `parseAdditionalImages` (`vehicles.ts:460-478`):
keep the fancybox links whose `href` and `data-thumb` are both truthy. -/
def parseAdditionalImages (element : VehicleElement) : List VehicleImage :=
  element.fancyboxLinks.filterMap (fun link =>
    match jsTruthyStr link.1, jsTruthyStr link.2 with
    | some url, some thumbnailUrl =>
      some { url := url, thumbnailUrl := thumbnailUrl, type := getImageType url }
    | _, _ => none)

/-- Model of the source's `parseVehicleImagesCheerio` (`vehicles.ts:483-490`). -/
def parseVehicleImagesCheerio (element : VehicleElement) : Except Unit (List VehicleImage) :=
  match parseMainImage element with
  | .error e => .error e
  | .ok mainImage =>
    .ok ((match mainImage with | some i => [i] | none => []) ++ parseAdditionalImages element)

/-- Model of the source's `createSlug` (`vehicles.ts:340`): lower-case,
split on spaces, join with hyphens. -/
def createSlug (text : String) : String :=
  String.mk (List.intercalate ['-'] (jsSplitChar ' ' (text.data.map Char.toLower)))

/-- The three outbound links of a listing. -/
structure VehicleUrls where
  detailsUrl : String
  partsUrl : String
  pricesUrl : String
  deriving DecidableEq, Repr

/-- Rendering of the year number into the URL templates; a `NaN` year
renders as the string "NaN" exactly as a JavaScript template literal does. -/
def yearToString : Option Int → String
  | some y => toString y
  | none => "NaN"

/-- Model of the source's `generateVehicleUrls` (`vehicles.ts:347-360`). -/
def generateVehicleUrls (year : Option Int) (make model : String) (location : Location) :
    VehicleUrls :=
  let modelSlug := createSlug model
  { detailsUrl :=
      API_ENDPOINTS.LKQ_BASE ++ location.urls.inventory ++ yearToString year ++ "-" ++
        String.mk (make.data.map Char.toLower) ++ "-" ++ modelSlug ++ "/"
    partsUrl :=
      API_ENDPOINTS.LKQ_BASE ++ location.urls.parts ++ "?year=" ++ yearToString year ++
        "&make=" ++ make ++ "&model=" ++ model
    pricesUrl := API_ENDPOINTS.LKQ_BASE ++ location.urls.prices }

/-- The `try` body of the source's `parseVehicleElement`
(`vehicles.ts:365-427`): `.ok none` models the explicit `return null`
branches (missing `.pypvi_ymm` link, unparsable title), while `.error`
models an exception escaping the body (an invalid main-image URL), which the
surrounding `catch` turns into `null`.  `now` is the ISO string
`new Date().toISOString()` would produce. -/
def parseVehicleElementTry (element : VehicleElement) (vehicleId : String)
    (location : Location) (now : String) : Except Unit (Option ParsedVehicleData) :=
  match element.ymmText with
  | none => .ok none
  | some ymmText =>
    match parseVehicleTitle ymmText with
    | none => .ok none
    | some titleData =>
      let details := parseVehicleDetails element
      let availableItem :=
        element.detailItems.find? (fun item => strIncludes item.text "Available:")
      let availableDate :=
        match availableItem with
        | some item => item.timeDatetime.getD now
        | none => now
      match parseVehicleImagesCheerio element with
      | .error e => .error e
      | .ok images =>
        let urls := generateVehicleUrls titleData.year titleData.make titleData.model location
        .ok (some
          { id := vehicleId
            year := titleData.year
            make := titleData.make
            model := titleData.model
            color := details.color
            vin := details.vin
            stockNumber := details.stockNumber
            availableDate := availableDate
            yardLocation := details.yardLocation
            images := images
            detailsUrl := urls.detailsUrl
            partsUrl := urls.partsUrl
            pricesUrl := urls.pricesUrl })

/-- Model of the source's `parseVehicleElement`: the `catch` maps a thrown
error to `null`. -/
def parseVehicleElement (element : VehicleElement) (vehicleId : String)
    (location : Location) (now : String) : Option ParsedVehicleData :=
  match parseVehicleElementTry element vehicleId location now with
  | .ok v => v
  | .error _ => none

/-- Model of the source's `parseVehicleInventoryHTML` (`vehicles.ts:181-207`):
a document is its list of `.pypvi_resultRow` elements; a row without a truthy
`id` is skipped, and a row whose parse yields `null` is skipped. -/
def parseVehicleInventoryHTML (rows : List VehicleElement) (location : Location)
    (now : String) : List ParsedVehicleData :=
  rows.foldl (fun vehicles element =>
    match jsTruthyStr element.id with
    | none => vehicles
    | some vehicleId =>
      match parseVehicleElement element vehicleId location now with
      | some vehicle => vehicles ++ [vehicle]
      | none => vehicles) []

/-- What the upstream inventory endpoint does on one attempt: either a
completed HTTP response with a status and a body (modelled as the listing
rows the body parses into), or a network-layer failure. -/
inductive RequestOutcome where
  | response (status : Nat) (rows : List VehicleElement)
  | networkError
  deriving DecidableEq, Repr

/-- The error classes thrown inside `fetchWithRetry` (`vehicles.ts:58-68`)
plus the network-layer rejection of `fetch` itself. -/
inductive FetchError where
  | client (status : Nat)
  | server (status : Nat)
  | network
  deriving DecidableEq, Repr

/-- A completed response as `fetchWithRetry` returns it. -/
structure FetchResponse where
  status : Nat
  rows : List VehicleElement
  deriving DecidableEq, Repr

/-- Model of `Response.ok`: status in the inclusive range 200-299. -/
def responseOk (status : Nat) : Bool := 200 ≤ status && status ≤ 299

/-- One attempt of the request body passed to `backOff`
(`vehicles.ts:50-69`): an ok response is returned, a 4xx status throws a
client error, any other completed status throws a server error, and a
network failure rejects. -/
def fetchAttempt (attempts : Nat → RequestOutcome) (k : Nat) :
    Except FetchError FetchResponse :=
  match attempts k with
  | .networkError => .error .network
  | .response status rows =>
    if responseOk status then .ok { status := status, rows := rows }
    else if 400 ≤ status && status < 500 then .error (.client status)
    else .error (.server status)

/-- Model of the `exponential-backoff` library's `backOff` loop: run the
body for attempt `attemptNumber`; on an error, retry (after a backoff delay,
irrelevant to the value computed) while retries remain and the user's
`retry` callback returns `true`, otherwise surface the last error.  The
second component records the number of the attempt on which the loop
stopped, i.e. how many attempts were performed. -/
def backOffAux (body : Nat → Except FetchError FetchResponse)
    (retryP : FetchError → Nat → Bool) :
    Nat → Nat → Except FetchError FetchResponse × Nat
  | attemptNumber, 0 => (body attemptNumber, attemptNumber)
  | attemptNumber, retriesLeft + 1 =>
    match body attemptNumber with
    | .ok r => (.ok r, attemptNumber)
    | .error e =>
      if retryP e attemptNumber then
        backOffAux body retryP (attemptNumber + 1) retriesLeft
      else (.error e, attemptNumber)

/-- Model of the source's `fetchWithRetry` (`vehicles.ts:45-82`):
`backOff` with `numOfAttempts = MAX_RETRIES = 3` and a `retry` callback that
returns `true` unconditionally (`vehicles.ts:74-79`), for every error class
including the client errors thrown for 4xx statuses. -/
def fetchWithRetry (attempts : Nat → RequestOutcome) :
    Except FetchError FetchResponse × Nat :=
  backOffAux (fetchAttempt attempts) (fun _ _ => true) 1 (SEARCH_CONFIG.MAX_RETRIES - 1)

/-- The `try` body of `fetchVehicleInventoryInternal` (`vehicles.ts:91-136`):
fetch with retry, re-check `response.ok` (dead code, since `fetchWithRetry`
only returns ok responses; the throw is modelled as a server error), then
parse the body's listing rows. -/
def fetchVehicleInventoryTry (attempts : Nat → RequestOutcome) (location : Location)
    (searchQuery : String) (now : String) : Except FetchError (List ParsedVehicleData) :=
  match (fetchWithRetry attempts).1 with
  | .error e => .error e
  | .ok response =>
    if ¬ responseOk response.status then .error (.server response.status)
    else .ok (parseVehicleInventoryHTML response.rows location now)

/-- Model of the source's `fetchVehicleInventoryInternal`
(`vehicles.ts:87-148`).  The catch-all `catch` turns EVERY error into an
empty vehicle list.  The second component counts how many times the
inter-request throttle `delay(SEARCH_CONFIG.REQUEST_DELAY)` was awaited: the
source awaits it only inside the `catch` block (`vehicles.ts:143-144`), so
the count is 1 on the failure path and 0 on the success path. -/
def fetchVehicleInventoryInternal (attempts : Nat → RequestOutcome)
    (location : Location) (searchQuery : String) (now : String) :
    List ParsedVehicleData × Nat :=
  match fetchVehicleInventoryTry attempts location searchQuery now with
  | .ok vehicles => (vehicles, 0)
  | .error _ => ([], 1)

/-- The upstream branch-directory fetch outcomes distinguished by
`fetchLocationsFromLKQ` (`locations.ts:16-108`): a network rejection, a
non-ok HTTP status, a page without the `_locationList` variable, or a
successfully parsed descriptor array. -/
inductive DirectoryUpstream where
  | networkError
  | httpError (status : Nat)
  | missingLocationList
  | ok (data : List Location)
  deriving DecidableEq, Repr

/-- The `try` body of `fetchLocationsFromLKQ`: the first three upstream
outcomes throw; a parsed descriptor array is mapped to the interface format.
The field-renaming map of `locations.ts:70-99` is a bijective relabelling,
so the model carries the already-relabelled records in the `ok`
constructor. -/
def fetchLocationsTry (upstream : DirectoryUpstream) : Except Unit (List Location) :=
  match upstream with
  | .networkError => .error ()
  | .httpError _ => .error ()
  | .missingLocationList => .error ()
  | .ok data => .ok data

/-- The built-in fallback directory of `getMockLocations`
(`locations.ts:113-150`): the single Huntsville branch. -/
def getMockLocations : List Location :=
  [{ locationCode := "1223"
     name := "LKQ Pick Your Part - Huntsville"
     displayName := "Huntsville"
     city := "Huntsville"
     state := "Alabama"
     stateAbbr := "AL"
     lat := 34
     lng := -86
     distance := 0
     urls :=
       { inventory := "/inventory/huntsville-1223/"
         parts := "/parts/huntsville-1223/"
         prices := "/prices/huntsville-1223/" } }]

/-- Model of the source's `fetchLocationsFromLKQ` (`locations.ts:16-108`):
any failure in the try body falls back to the hardcoded mock list — the
previously cached snapshot is NOT consulted here. -/
def fetchLocationsFromLKQ (upstream : DirectoryUpstream) : List Location :=
  match fetchLocationsTry upstream with
  | .ok locations => locations
  | .error _ => getMockLocations

/-- The 24-hour directory cache window (`locations.ts:9`), in milliseconds. -/
def CACHE_DURATION : Int := 24 * 60 * 60 * 1000

/-- The module-level mutable state of `locations.ts:7-8`. -/
structure LocationsCacheState where
  locationsCache : Option (List Location)
  lastFetchTime : Int
  deriving DecidableEq, Repr

/-- Model of `locationsRouter.getAll` (`locations.ts:178-194`): return the
cached snapshot while it is younger than `CACHE_DURATION`, otherwise fetch
(falling back to the mock list on failure) and overwrite the cache.  The
function is total: no outcome makes it throw. -/
def locationsGetAll (state : LocationsCacheState) (now : Int)
    (upstream : DirectoryUpstream) : List Location × LocationsCacheState :=
  match state.locationsCache with
  | some cached =>
    if now - state.lastFetchTime < CACHE_DURATION then (cached, state)
    else
      let locations := fetchLocationsFromLKQ upstream
      (locations, { locationsCache := some locations, lastFetchTime := now })
  | none =>
    let locations := fetchLocationsFromLKQ upstream
    (locations, { locationsCache := some locations, lastFetchTime := now })

/-- Sort keys of the search filters (`vehicles.ts:31`). -/
inductive SortKey where
  | distance
  | date
  | year
  | make
  | location
  deriving DecidableEq, Repr

/-- Sort directions of the search filters (`vehicles.ts:32`). -/
inductive SortOrder where
  | asc
  | desc
  deriving DecidableEq, Repr

/-- The search filters value object (`vehicles.ts:22-33`).  Optional fields
are `Option`; `Date` values are modelled by their epoch-millisecond
timestamps; coordinates and distances are modelled as integers. -/
structure SearchFilters where
  query : String
  makes : Option (List String)
  models : Option (List String)
  colors : Option (List String)
  yearRange : Option (Int × Int)
  dateRange : Option (Int × Int)
  maxDistance : Option Int
  userLocation : Option (Int × Int)
  sortBy : Option SortKey
  sortOrder : Option SortOrder
  deriving DecidableEq, Repr

/-- Read a fixed number of decimal digits. -/
def parseDigits (n : Nat) (l : List Char) : Option (Nat × List Char) :=
  let ds := l.take n
  if ds.length = n ∧ ds.all isDecDigit then
    some (ds.foldl (fun a c => a * 10 + (c.toNat - 48)) 0, l.drop n)
  else none

/-- Days from the civil epoch 1970-01-01 for a Gregorian date. -/
def daysFromCivil (y m d : Int) : Int :=
  let yy := if m ≤ 2 then y - 1 else y
  let era := Int.fdiv yy 400
  let yoe := yy - era * 400
  let mp := if m ≤ 2 then m + 9 else m - 3
  let doy := Int.fdiv (153 * mp + 2) 5 + d - 1
  let doe := yoe * 365 + Int.fdiv yoe 4 - Int.fdiv yoe 100 + doy
  era * 146097 + doe - 719468

/-- Model of `new Date(string).getTime()` for the ISO-8601 date strings this
system produces and consumes ("YYYY-MM-DD", optionally "THH:MM:SS" with an
optional ".mmm" millisecond part and an optional trailing "Z"); any other
shape is an invalid date, whose time value is `NaN`, modelled as `none`. -/
def jsDateParse (s : String) : Option Int := do
  let (y, r1) ← parseDigits 4 s.data
  match r1 with
  | '-' :: r2 =>
    let (mo, r3) ← parseDigits 2 r2
    match r3 with
    | '-' :: r4 =>
      let (d, r5) ← parseDigits 2 r4
      if ¬ (1 ≤ mo ∧ mo ≤ 12 ∧ 1 ≤ d ∧ d ≤ 31) then none
      else
        let dayMs : Int := daysFromCivil y mo d * 86400000
        match r5 with
        | [] => some dayMs
        | 'T' :: r6 => do
          let (hh, r7) ← parseDigits 2 r6
          match r7 with
          | ':' :: r8 =>
            let (mi, r9) ← parseDigits 2 r8
            match r9 with
            | ':' :: r10 => do
              let (ss, r11) ← parseDigits 2 r10
              if ¬ (hh ≤ 23 ∧ mi ≤ 59 ∧ ss ≤ 59) then none
              else
                let timeMs : Int := (hh * 3600000 + mi * 60000 + ss * 1000 : Nat)
                match r11 with
                | [] => some (dayMs + timeMs)
                | ['Z'] => some (dayMs + timeMs)
                | '.' :: r12 => do
                  let (ms, r13) ← parseDigits 3 r12
                  match r13 with
                  | [] => some (dayMs + timeMs + ms)
                  | ['Z'] => some (dayMs + timeMs + ms)
                  | _ => none
                | _ => none
            | _ => none
          | _ => none
        | _ => none
    | _ => none
  | _ => none

/-- The conjunction of the source's filter predicates (`vehicles.ts:512-560`)
for one vehicle, with JavaScript semantics preserved: an absent or empty
array imposes no constraint; a `maxDistance` of `0` is falsy and disables
the distance filter; comparisons against a `NaN` year or an invalid date are
false, so such records are never excluded by the range filters. -/
def vehiclePasses (filters : SearchFilters) (vehicle : Vehicle) : Bool :=
  if (match filters.makes with
      | some ms => ¬ ms.isEmpty && ¬ ms.contains vehicle.make
      | none => false) then false
  else if (match filters.models with
      | some ms => ¬ ms.isEmpty && ¬ ms.contains vehicle.model
      | none => false) then false
  else if (match filters.colors with
      | some cs => ¬ cs.isEmpty && ¬ cs.contains vehicle.color
      | none => false) then false
  else if (match filters.yearRange with
      | some (minYear, maxYear) =>
        match vehicle.year with
        | some y => y < minYear || y > maxYear
        | none => false
      | none => false) then false
  else if (match filters.dateRange with
      | some (startDate, endDate) =>
        match jsDateParse vehicle.availableDate with
        | some t => t < startDate || t > endDate
        | none => false
      | none => false) then false
  else if (match filters.maxDistance, filters.userLocation with
      | some maxD, some _ => maxD ≠ 0 && vehicle.location.distance > maxD
      | _, _ => false) then false
  else true

/-- Model of the source's `filterVehicles` (`vehicles.ts:512-560`). -/
def filterVehicles (vehicles : List Vehicle) (filters : SearchFilters) : List Vehicle :=
  vehicles.filter (fun vehicle => vehiclePasses filters vehicle)

/-- Three-way string comparison modelling `localeCompare` under the default
locale, as the lexicographic order on code points. -/
def cmpString (a b : String) : Int :=
  if a < b then -1 else if b < a then 1 else 0

/-- Numeric comparator difference with `NaN` propagation collapsed to `0`:
ECMAScript's `SortCompare` treats a `NaN` comparator result as `+0`. -/
def jsCompareNumOpt (a b : Option Int) : Int :=
  match a, b with
  | some x, some y => x - y
  | _, _ => 0

/-- The comparator of the source's `sortVehicles` (`vehicles.ts:574-596`)
for a given sort key and direction multiplier. -/
def vehicleCompare (sortBy : SortKey) (multiplier : Int) (a b : Vehicle) : Int :=
  match sortBy with
  | .distance => (a.location.distance - b.location.distance) * multiplier
  | .date =>
    jsCompareNumOpt (jsDateParse a.availableDate) (jsDateParse b.availableDate) * multiplier
  | .year => jsCompareNumOpt a.year b.year * multiplier
  | .make => cmpString a.make b.make * multiplier
  | .location => cmpString a.location.displayName b.location.displayName * multiplier

/-- Insert for the stable-sort model: place `x` before the first element `y`
with `c y x ≥ 0`, i.e. walk past exactly the elements that compare strictly
before `x`. -/
def jsSortInsert {α : Type} (c : α → α → Int) (x : α) : List α → List α
  | [] => [x]
  | y :: ys => if c y x < 0 then y :: jsSortInsert c x ys else x :: y :: ys

/-- Stable comparator sort modelling `Array.prototype.sort` (stable per
ECMAScript 2019 and later). -/
def jsStableSort {α : Type} (c : α → α → Int) : List α → List α
  | [] => []
  | x :: xs => jsSortInsert c x (jsStableSort c xs)

/-- Model of the source's `sortVehicles` (`vehicles.ts:565-597`): no sort key
leaves the list untouched; otherwise a stable comparator sort with the
multiplier -1 for descending order (the `sortOrder` parameter defaults to
ascending when absent). -/
def sortVehicles (vehicles : List Vehicle) (sortBy : Option SortKey)
    (sortOrder : Option SortOrder) : List Vehicle :=
  match sortBy with
  | none => vehicles
  | some key =>
    let multiplier : Int := if sortOrder.getD .asc = .desc then -1 else 1
    jsStableSort (vehicleCompare key multiplier) vehicles

/-- The search result record (`vehicles.ts:660-668`). -/
structure SearchResult where
  vehicles : List Vehicle
  totalCount : Nat
  page : Nat
  hasMore : Bool
  searchTime : Nat
  locationsCovered : Nat
  locationsWithErrors : List String
  deriving DecidableEq, Repr

/-- One per-branch task of `vehiclesRouter.search` (`vehicles.ts:617-639`):
the `try` block awaits `fetchVehicleInventory` and attaches the branch.  The
model of `fetchVehicleInventoryInternal` is total (its own catch-all returns
`[]` for every failure), so the task's outcome is always `ok` — nothing in
the awaited call can reject. -/
def searchTaskResult (behavior : Location → Nat → RequestOutcome) (query now : String)
    (location : Location) : Except String (List ParsedVehicleData) :=
  .ok (fetchVehicleInventoryInternal (behavior location) location query now).1

/-- The fan-out/fan-in of `vehiclesRouter.search`: every task settles; an
`ok` contributes its vehicles in branch order, an `error` would push the
branch code onto `locationsWithErrors` (`vehicles.ts:631-638`). -/
def searchCollect (locations : List Location) (behavior : Location → Nat → RequestOutcome)
    (query now : String) : List Vehicle × List String :=
  locations.foldr (fun location acc =>
    match searchTaskResult behavior query now location with
    | .ok parsedVehicles =>
      (parsedVehicles.map (fun v => { toParsedVehicleData := v, location := location }) ++
        acc.1, acc.2)
    | .error _ => (acc.1, location.locationCode :: acc.2)) ([], [])

/-- Model of `vehiclesRouter.search` (`vehicles.ts:603-669`).  `locations` is
the branch list resolved from the Location Directory before fan-out;
`behavior` gives each branch's upstream responses per attempt; `now` is the
ISO timestamp used for defaulted availability dates; `elapsed` the measured
wall-clock time. -/
def search (locations : List Location) (behavior : Location → Nat → RequestOutcome)
    (input : SearchFilters) (now : String) (elapsed : Nat) : SearchResult :=
  let collected := searchCollect locations behavior input.query now
  let filteredVehicles := filterVehicles collected.1 input
  let sortedVehicles := sortVehicles filteredVehicles input.sortBy input.sortOrder
  { vehicles := sortedVehicles
    totalCount := sortedVehicles.length
    page := 1
    hasMore := false
    searchTime := elapsed
    locationsCovered := locations.length - collected.2.length
    locationsWithErrors := collected.2 }

/-- The filter-then-sort pipeline as `vehiclesRouter.search` applies it
(`vehicles.ts:646-653`): `filterVehicles` then `sortVehicles` with the
filters' sort key and direction. -/
def applyFilterSort (vehicles : List Vehicle) (filters : SearchFilters) : List Vehicle :=
  sortVehicles (filterVehicles vehicles filters) filters.sortBy filters.sortOrder

/-- Whether one upstream attempt outcome is a success (a completed response
with an ok status). -/
def attemptSucceeds (outcome : RequestOutcome) : Bool :=
  match outcome with
  | .response status _ => responseOk status
  | .networkError => false

/-- No branch of the given list ever fails an attempt. -/
def noUpstreamFailure (locations : List Location)
    (behavior : Location → Nat → RequestOutcome) : Prop :=
  ∀ location ∈ locations, ∀ k, attemptSucceeds (behavior location k) = true

/-- Modelled from the claim's words for C6: a record is kept exactly when its
year satisfies `min ≤ year ≤ max`. -/
def claimYearKeep (minYear maxYear : Int) (vehicle : Vehicle) : Bool :=
  match vehicle.year with
  | some y => decide (minYear ≤ y) && decide (y ≤ maxYear)
  | none => false

/-- Search filters with every optional field absent. -/
def emptyFilters : SearchFilters :=
  { query := ""
    makes := none
    models := none
    colors := none
    yearRange := none
    dateRange := none
    maxDistance := none
    userLocation := none
    sortBy := none
    sortOrder := none }

/-- Search filters constraining only the year range. -/
def yearOnlyFilters (minYear maxYear : Int) : SearchFilters :=
  { emptyFilters with yearRange := some (minYear, maxYear) }

/-- A fixed ISO timestamp standing for `new Date().toISOString()`. -/
def nowIso : String := "2024-01-01T00:00:00.000Z"

/-- The Huntsville branch (the sole entry of the built-in fallback list). -/
def locA : Location :=
  { locationCode := "1223"
    name := "LKQ Pick Your Part - Huntsville"
    displayName := "Huntsville"
    city := "Huntsville"
    state := "Alabama"
    stateAbbr := "AL"
    lat := 34
    lng := -86
    distance := 0
    urls :=
      { inventory := "/inventory/huntsville-1223/"
        parts := "/parts/huntsville-1223/"
        prices := "/prices/huntsville-1223/" } }

/-- A second branch used by the failure-isolation scenario. -/
def locB : Location :=
  { locA with
    locationCode := "1224"
    name := "LKQ Pick Your Part - Monrovia"
    displayName := "Monrovia"
    city := "Monrovia"
    urls :=
      { inventory := "/inventory/monrovia-1224/"
        parts := "/parts/monrovia-1224/"
        prices := "/prices/monrovia-1224/" } }

/-- A branch that is not in the fallback list, used as a stale snapshot. -/
def locOther : Location :=
  { locA with locationCode := "0999", displayName := "Elsewhere" }

/-- A well-formed listing row: a 2018 Honda Civic with no detail items and no
images. -/
def elemCivic : VehicleElement :=
  { id := some "vehicle-1"
    ymmText := some "2018 HONDA CIVIC"
    detailItems := []
    mainImgSrc := none
    fancyboxLinks := [] }

/-- A listing row whose title's first token is not numeric. -/
def elemFooTitle : VehicleElement :=
  { elemCivic with id := some "vehicle-2", ymmText := some "FOO HONDA CIVIC" }

/-- The parsed record `parseVehicleElement` produces for `elemCivic`. -/
def civicParsed : ParsedVehicleData :=
  { id := "vehicle-1"
    year := some 2018
    make := "HONDA"
    model := "CIVIC"
    color := "Unknown"
    vin := ""
    stockNumber := ""
    availableDate := nowIso
    yardLocation := { «section» := "", row := "", space := "" }
    images := []
    detailsUrl := "https://www.lkqpickyourpart.com/inventory/huntsville-1223/2018-honda-civic/"
    partsUrl := "https://www.lkqpickyourpart.com/parts/huntsville-1223/?year=2018&make=HONDA&model=CIVIC"
    pricesUrl := "https://www.lkqpickyourpart.com/prices/huntsville-1223/" }

/-- Branch behaviour for the isolation scenario: branch 1224 fails at the
network layer on every attempt; every other branch answers 200 with one
parseable row. -/
def behaviorOneFailing : Location → Nat → RequestOutcome := fun location _ =>
  if location.locationCode = "1224" then .networkError
  else .response 200 [elemCivic]

/-- Branch behaviour where every attempt of every branch succeeds with an
empty inventory page. -/
def behaviorAllOk : Location → Nat → RequestOutcome := fun _ _ => .response 200 []

/-- An upstream that answers HTTP 404 to every attempt. -/
def const404 : Nat → RequestOutcome := fun _ => .response 404 []

/-- An upstream that answers HTTP 500 on the first two attempts and 200 on
the third. -/
def upstream500TwiceThen200 : Nat → RequestOutcome := fun k =>
  if k ≤ 2 then .response 500 [] else .response 200 []

/-- A vehicle record with the given year and fixed remaining fields. -/
def mkVehicle (year : Option Int) : Vehicle :=
  { id := "v"
    year := year
    make := "HONDA"
    model := "CIVIC"
    color := "BLUE"
    vin := ""
    stockNumber := ""
    availableDate := "2024-01-01"
    yardLocation := { «section» := "", row := "", space := "" }
    images := []
    detailsUrl := ""
    partsUrl := ""
    pricesUrl := ""
    location := locA }

/-- The state-machine flag corresponding to an accumulator of the
`normalizeStep` fold: non-empty and not ending in a space. -/
def accFlag (acc : List Char) : Bool :=
  decide (acc ≠ [] ∧ acc.getLast? ≠ some ' ')

/-- Every character at the end of the list (if any) is a non-whitespace
character, in the source's six-character ASCII sense. -/
def lastNotWs (l : List Char) : Prop :=
  ∀ c, l.getLast? = some c → isWhitespace c = false

/-- Skew symmetry of a JavaScript comparator: swapping the arguments negates
the result. -/
def skewSymm {α : Type} (c : α → α → Int) : Prop :=
  ∀ a b, c a b = -(c b a)

/-- Decidable equality for `Except` values. -/
instance {ε α : Type} [DecidableEq ε] [DecidableEq α] : DecidableEq (Except ε α) := fun a b =>
  match a, b with
  | .ok x, .ok y =>
    if h : x = y then .isTrue (by rw [h]) else .isFalse (fun he => h (by injection he))
  | .error x, .error y =>
    if h : x = y then .isTrue (by rw [h]) else .isFalse (fun he => h (by injection he))
  | .ok _, .error _ => .isFalse (fun he => Except.noConfusion he)
  | .error _, .ok _ => .isFalse (fun he => Except.noConfusion he)

/-- Inserting into a list whose adjacent pairs compare `≤ 0` preserves that
property, for any skew-symmetric comparator. -/
theorem jsSortInsert_chain {α : Type} {c : α → α → Int} (hsk : skewSymm c) (x : α) :
    ∀ L : List α, List.Chain' (fun u v => c u v ≤ 0) L →
      List.Chain' (fun u v => c u v ≤ 0) (jsSortInsert c x L) := by
  intro L
  induction L with
  | nil => intro _; simp [jsSortInsert]
  | cons y ys ih =>
    intro h
    rw [jsSortInsert]
    by_cases hc : c y x < 0
    · rw [if_pos hc]
      rw [List.chain'_cons']
      refine ⟨?_, ih (List.chain'_cons'.mp h).2⟩
      intro z hz
      cases ys with
      | nil =>
        simp [jsSortInsert] at hz
        subst hz
        exact le_of_lt hc
      | cons w ws =>
        rw [jsSortInsert] at hz
        by_cases hcw : c w x < 0
        · rw [if_pos hcw] at hz
          simp at hz
          subst hz
          exact (List.chain'_cons.mp h).1
        · rw [if_neg hcw] at hz
          simp at hz
          subst hz
          exact le_of_lt hc
    · rw [if_neg hc]
      rw [List.chain'_cons]
      constructor
      · rw [hsk x y]; omega
      · exact h
  
/-- The stable sort always produces a list whose adjacent pairs compare
`≤ 0`, for any skew-symmetric comparator. -/
theorem jsStableSort_chain {α : Type} {c : α → α → Int} (hsk : skewSymm c) :
    ∀ L : List α, List.Chain' (fun u v => c u v ≤ 0) (jsStableSort c L) := by
  intro L
  induction L with
  | nil => simp [jsStableSort]
  | cons x xs ih => exact jsSortInsert_chain hsk x _ ih

/-- The stable sort leaves a list untouched when its adjacent pairs already
compare `≤ 0` under a skew-symmetric comparator. -/
theorem jsStableSort_eq_self {α : Type} {c : α → α → Int} (hsk : skewSymm c) :
    ∀ L : List α, List.Chain' (fun u v => c u v ≤ 0) L → jsStableSort c L = L := by
  intro L
  induction L with
  | nil => intro _; rfl
  | cons x xs ih =>
    intro h
    rw [jsStableSort, ih (List.chain'_cons'.mp h).2]
    cases xs with
    | nil => rfl
    | cons y ys =>
      have hxy : c x y ≤ 0 := (List.chain'_cons.mp h).1
      have hyx : ¬ c y x < 0 := by rw [hsk y x]; omega
      rw [jsSortInsert, if_neg hyx]

/-- Sorting twice is the same as sorting once, for any skew-symmetric
comparator. -/
theorem jsStableSort_idem {α : Type} {c : α → α → Int} (hsk : skewSymm c) (L : List α) :
    jsStableSort c (jsStableSort c L) = jsStableSort c L :=
  jsStableSort_eq_self hsk _ (jsStableSort_chain hsk L)

/-- Membership in an insertion. -/
theorem mem_jsSortInsert {α : Type} {c : α → α → Int} {x a : α} :
    ∀ {L : List α}, a ∈ jsSortInsert c x L → a = x ∨ a ∈ L := by
  intro L
  induction L with
  | nil => intro h; simp [jsSortInsert] at h; exact Or.inl h
  | cons y ys ih =>
    intro h
    rw [jsSortInsert] at h
    by_cases hc : c y x < 0
    · rw [if_pos hc] at h
      rcases List.mem_cons.mp h with h | h
      · exact Or.inr (List.mem_cons.mpr (Or.inl h))
      · rcases ih h with h | h
        · exact Or.inl h
        · exact Or.inr (List.mem_cons.mpr (Or.inr h))
    · rw [if_neg hc] at h
      rcases List.mem_cons.mp h with h | h
      · exact Or.inl h
      · exact Or.inr h

/-- The stable sort introduces no new elements. -/
theorem mem_jsStableSort {α : Type} {c : α → α → Int} {a : α} :
    ∀ {L : List α}, a ∈ jsStableSort c L → a ∈ L := by
  intro L
  induction L with
  | nil => intro h; simp [jsStableSort] at h
  | cons x xs ih =>
    intro h
    rcases mem_jsSortInsert h with h | h
    · exact h ▸ List.mem_cons_self x xs
    · exact List.mem_cons.mpr (Or.inr (ih h))

/-- The `localeCompare` model is skew-symmetric. -/
theorem cmpString_skew (a b : String) : cmpString a b = -(cmpString b a) := by
  rcases lt_trichotomy a b with h | h | h
  · rw [cmpString, cmpString, if_pos h, if_neg (lt_asymm h), if_pos h]
  · subst h
    rw [cmpString]
    simp
  · rw [cmpString, cmpString, if_neg (lt_asymm h), if_pos h, if_pos h]
    norm_num

/-- The numeric comparator model is skew-symmetric. -/
theorem jsCompareNumOpt_skew (a b : Option Int) : jsCompareNumOpt a b = -(jsCompareNumOpt b a) := by
  cases a <;> cases b <;> simp [jsCompareNumOpt]

/-- Every sort comparator of `sortVehicles` is skew-symmetric. -/
theorem vehicleCompare_skew (k : SortKey) (m : Int) : skewSymm (vehicleCompare k m) := by
  intro a b
  cases k
  · show (a.location.distance - b.location.distance) * m = -((b.location.distance - a.location.distance) * m)
    ring
  · show jsCompareNumOpt _ _ * m = -(jsCompareNumOpt _ _ * m)
    rw [jsCompareNumOpt_skew]; ring
  · show jsCompareNumOpt _ _ * m = -(jsCompareNumOpt _ _ * m)
    rw [jsCompareNumOpt_skew]; ring
  · show cmpString _ _ * m = -(cmpString _ _ * m)
    rw [cmpString_skew]; ring
  · show cmpString _ _ * m = -(cmpString _ _ * m)
    rw [cmpString_skew]; ring

/-- Filtering a second time with the same filters changes nothing. -/
theorem filterVehicles_idem (vehicles : List Vehicle) (filters : SearchFilters) :
    filterVehicles (filterVehicles vehicles filters) filters = filterVehicles vehicles filters := by
  unfold filterVehicles
  rw [List.filter_eq_self]
  intro a ha
  exact (List.mem_filter.mp ha).2

/-- C7: Idempotence and purity of the Filter/Sort Engine: applying the
filter-then-sort pipeline twice yields the same output as applying it once.
(The pipeline is a pure function of its inputs; in the source the only
in-place mutation is `Array.prototype.sort` acting on the fresh array that
`Array.prototype.filter` allocated, so the caller's input list is left
unchanged.) -/
theorem c7_engine_idempotent (vehicles : List Vehicle) (filters : SearchFilters) :
    applyFilterSort (applyFilterSort vehicles filters) filters =
      applyFilterSort vehicles filters := by
  unfold applyFilterSort
  cases hk : filters.sortBy with
  | none =>
    simp only [sortVehicles]
    exact filterVehicles_idem vehicles filters
  | some key =>
    simp only [sortVehicles]
    have hsk := vehicleCompare_skew key
      (if filters.sortOrder.getD SortOrder.asc = SortOrder.desc then -1 else 1)
    have hfil :
        filterVehicles
          (jsStableSort
            (vehicleCompare key
              (if filters.sortOrder.getD SortOrder.asc = SortOrder.desc then -1 else 1))
            (filterVehicles vehicles filters)) filters =
        jsStableSort
          (vehicleCompare key
            (if filters.sortOrder.getD SortOrder.asc = SortOrder.desc then -1 else 1))
          (filterVehicles vehicles filters) := by
      unfold filterVehicles
      rw [List.filter_eq_self]
      intro a ha
      exact (List.mem_filter.mp (mem_jsStableSort ha)).2
    rw [hfil, jsStableSort_idem hsk]

/-- Composing two head modifications. -/
theorem modifyHead_modifyHead {α : Type} (l : List α) (f g : α → α) :
    (l.modifyHead f).modifyHead g = l.modifyHead (fun a => g (f a)) := by
  cases l <;> simp

/-- The `normalizeStep` fold is the `norm2` state machine, the flag being
the accumulator's shape. -/
theorem foldl_normalizeStep :
    ∀ (l : List Char) (acc : List Char),
      l.foldl normalizeStep acc = acc ++ norm2 (accFlag acc) l := by
  intro l
  induction l with
  | nil => intro acc; simp [norm2]
  | cons c r ih =>
    intro acc
    rw [List.foldl_cons]
    by_cases hw : isWhitespace c = true
    · by_cases hcond : acc ≠ [] ∧ acc.getLast? ≠ some ' '
      · have hstep : normalizeStep acc c = acc ++ [' '] := by
          rw [normalizeStep, if_neg (fun hn => hn hw), if_pos hcond]
        have hflag : accFlag acc = true := by simp [accFlag, hcond.1, hcond.2]
        have hflag2 : accFlag (acc ++ [' ']) = false := by
          simp [accFlag, List.getLast?_concat]
        rw [hstep, ih (acc ++ [' ']), hflag2, hflag, List.append_assoc]
        congr 1
        simp [norm2, hw]
      · have hstep : normalizeStep acc c = acc := by
          rw [normalizeStep, if_neg (fun hn => hn hw), if_neg hcond]
        have hflag : accFlag acc = false := by
          simp only [accFlag, decide_eq_false_iff_not]
          exact hcond
        rw [hstep, ih acc, hflag]
        congr 1
        simp [norm2, hw]
    · have hw' : isWhitespace c = false := by
        revert hw; cases isWhitespace c <;> simp
      have hc' : c ≠ ' ' := by
        intro he
        subst he
        simp [isWhitespace] at hw'
      have hstep : normalizeStep acc c = acc ++ [c] := by
        rw [normalizeStep, if_pos (by simp [hw'])]
      have hflag2 : accFlag (acc ++ [c]) = true := by
        simp [accFlag, List.getLast?_concat, hc']
      rw [hstep, ih (acc ++ [c]), hflag2, List.append_assoc]
      congr 1
      cases hacc : accFlag acc <;> simp [norm2, hw']

/-- A list ending in a word character keeps that property when its head is
removed (as long as the tail is non-empty). -/
theorem lastNotWs_tail {c : Char} {r : List Char} (h : lastNotWs (c :: r)) (hr : r ≠ []) :
    lastNotWs r := by
  intro d hd
  apply h
  cases r with
  | nil => exact absurd rfl hr
  | cons e t => rw [List.getLast?_cons_cons]; exact hd

/-- A list ending in a word character always keeps that property when its
head is removed. -/
theorem lastNotWs_of_cons {c : Char} {r : List Char} (h : lastNotWs (c :: r)) :
    lastNotWs r := by
  cases hr : r with
  | nil => intro d hd; simp at hd
  | cons e t => exact hr ▸ lastNotWs_tail h (hr ▸ (by simp) : r ≠ [])

/-- The normalizer never erases a non-empty input that ends in a word
character. -/
theorem norm2_ne_nil : ∀ l : List Char, l ≠ [] → lastNotWs l → ∀ flag, norm2 flag l ≠ [] := by
  intro l
  induction l with
  | nil => intro h; exact absurd rfl h
  | cons c r ih =>
    intro _ hlast flag
    by_cases hw : isWhitespace c = true
    · have hr : r ≠ [] := by
        intro he
        subst he
        exact absurd (hlast c rfl) (by simp [hw])
      have hlr := lastNotWs_tail hlast hr
      cases flag <;> simp [norm2, hw]
      · exact ih hr hlr false
    · simp [norm2, hw]

/-- Unfolding `norm2` on a whitespace character. -/
theorem norm2_cons_ws {c : Char} (hw : isWhitespace c = true) (flag : Bool) (r : List Char) :
    norm2 flag (c :: r) = if flag then ' ' :: norm2 false r else norm2 false r := by
  cases flag <;> simp [norm2, hw]

/-- Unfolding `norm2` on a word character. -/
theorem norm2_cons_word {c : Char} (hw : isWhitespace c = false) (flag : Bool) (r : List Char) :
    norm2 flag (c :: r) = c :: norm2 true r := by
  cases flag <;> simp [norm2, hw]

/-- The normalizer preserves the last character of an input that ends in a
word character. -/
theorem norm2_getLast? : ∀ (l : List Char) (flag : Bool), lastNotWs l →
    (norm2 flag l).getLast? = l.getLast? := by
  intro l
  induction l with
  | nil => intro flag _; rfl
  | cons c r ih =>
    intro flag hlast
    by_cases hw : isWhitespace c = true
    · have hr : r ≠ [] := by
        intro he
        subst he
        exact absurd (hlast c rfl) (by simp [hw])
      have hlr := lastNotWs_tail hlast hr
      have hglr : (c :: r).getLast? = r.getLast? := by
        cases r with
        | nil => exact absurd rfl hr
        | cons e t => rw [List.getLast?_cons_cons]
      rw [norm2_cons_ws hw, hglr]
      cases flag
      · rw [if_neg (by simp)]
        exact ih false hlr
      · rw [if_pos rfl]
        cases hm : norm2 false r with
        | nil => exact absurd hm (norm2_ne_nil r hr hlr false)
        | cons d t => rw [List.getLast?_cons_cons, ← hm, ih false hlr]
    · have hw' : isWhitespace c = false := by
        revert hw; cases isWhitespace c <;> simp
      have hlr := lastNotWs_of_cons hlast
      rw [norm2_cons_word hw']
      cases hr : r with
      | nil => simp [norm2]
      | cons e t =>
        subst hr
        cases hm : norm2 true (e :: t) with
        | nil => exact absurd hm (norm2_ne_nil (e :: t) (by simp) hlr true)
        | cons d u =>
          rw [List.getLast?_cons_cons, ← hm, ih true hlr, List.getLast?_cons_cons]

/-- The head surviving a `dropWhile` fails the predicate. -/
theorem head?_dropWhile_not {α : Type} (p : α → Bool) :
    ∀ (l : List α) (c : α), (l.dropWhile p).head? = some c → p c = false := by
  intro l
  induction l with
  | nil => intro c h; simp [List.dropWhile] at h
  | cons a r ih =>
    intro c h
    by_cases hp : p a = true
    · rw [List.dropWhile_cons, if_pos hp] at h
      exact ih c h
    · have hp' : p a = false := by revert hp; cases p a <;> simp
      rw [List.dropWhile_cons, if_neg (by simp [hp'])] at h
      simp at h
      exact h ▸ hp'

/-- `dropWhile` removes only a prefix, so a surviving last element was the
last element of the input. -/
theorem getLast?_dropWhile {α : Type} (p : α → Bool) :
    ∀ (l : List α) (c : α), (l.dropWhile p).getLast? = some c → l.getLast? = some c := by
  intro l
  induction l with
  | nil => intro c h; simp [List.dropWhile] at h
  | cons a r ih =>
    intro c h
    by_cases hp : p a = true
    · rw [List.dropWhile_cons, if_pos hp] at h
      have hr := ih c h
      cases r with
      | nil => simp at hr
      | cons e t => rw [List.getLast?_cons_cons]; exact hr
    · rw [List.dropWhile_cons, if_neg hp] at h
      exact h

/-- A list whose boundary characters are not trim-whitespace is unchanged by
`jsTrim`. -/
theorem jsTrim_eq_self {l : List Char}
    (hh : ∀ c, l.head? = some c → isJsTrimWhitespace c = false)
    (hl : ∀ c, l.getLast? = some c → isJsTrimWhitespace c = false) :
    jsTrim l = l := by
  unfold jsTrim
  have h1 : l.dropWhile isJsTrimWhitespace = l := by
    cases l with
    | nil => rfl
    | cons c r =>
      rw [List.dropWhile_cons, if_neg (by simp [hh c rfl])]
  rw [h1]
  have h2 : l.reverse.dropWhile isJsTrimWhitespace = l.reverse := by
    cases hrev : l.reverse with
    | nil => rfl
    | cons c r =>
      have hc : l.getLast? = some c := by
        rw [← List.head?_reverse, hrev]
        rfl
      rw [List.dropWhile_cons, if_neg (by simp [hl c hc])]
  rw [h2, List.reverse_reverse]

/-- The head of a trimmed list is not trim-whitespace. -/
theorem jsTrim_head_not (l : List Char) (c : Char) :
    (jsTrim l).head? = some c → isJsTrimWhitespace c = false := by
  intro h
  unfold jsTrim at h
  rw [List.head?_reverse] at h
  have h2 := getLast?_dropWhile isJsTrimWhitespace _ c h
  rw [List.getLast?_reverse] at h2
  exact head?_dropWhile_not isJsTrimWhitespace _ c h2

/-- The last character of a trimmed list is not trim-whitespace. -/
theorem jsTrim_getLast_not (l : List Char) (c : Char) :
    (jsTrim l).getLast? = some c → isJsTrimWhitespace c = false := by
  intro h
  unfold jsTrim at h
  rw [List.getLast?_reverse] at h
  exact head?_dropWhile_not isJsTrimWhitespace _ c h

/-- ASCII whitespace is trim-whitespace. -/
theorem isWhitespace_le_jsTrim {c : Char} (h : isJsTrimWhitespace c = false) :
    isWhitespace c = false := by
  revert h
  unfold isJsTrimWhitespace
  cases isWhitespace c <;> simp

/-- Central tokenization lemma: on input ending in a word character, the
source pipeline "normalize whitespace runs, then split on single spaces"
produces exactly the specification's whitespace-run tokens.  The first
component carries the in-word state (a non-empty pending token `acc`), the
second the between-words state. -/
theorem wordsAux_norm2_joint : ∀ r : List Char,
    (∀ acc, acc ≠ [] → lastNotWs r →
      wordsAux isWhitespace r acc =
        (jsSplitChar ' ' (norm2 true r)).modifyHead (fun piece => acc.reverse ++ piece)) ∧
    (r ≠ [] → lastNotWs r → wordsAux isWhitespace r [] = jsSplitChar ' ' (norm2 false r)) := by
  intro r
  induction r with
  | nil =>
    constructor
    · intro acc hacc _
      simp [wordsAux, norm2, jsSplitChar, hacc]
    · intro h _
      exact absurd rfl h
  | cons c r ih =>
    constructor
    · intro acc hacc hlast
      by_cases hw : isWhitespace c = true
      · have hr : r ≠ [] := by
          intro he
          subst he
          exact absurd (hlast c rfl) (by simp [hw])
        have hlr := lastNotWs_tail hlast hr
        rw [norm2_cons_ws hw, if_pos rfl]
        have hwa : wordsAux isWhitespace (c :: r) acc =
            acc.reverse :: wordsAux isWhitespace r [] := by
          simp [wordsAux, hw, hacc]
        have hsp : jsSplitChar ' ' (' ' :: norm2 false r) =
            [] :: jsSplitChar ' ' (norm2 false r) := by
          simp [jsSplitChar]
        rw [hwa, ih.2 hr hlr, hsp]
        simp
      · have hw' : isWhitespace c = false := by
          revert hw; cases isWhitespace c <;> simp
        have hlr := lastNotWs_of_cons hlast
        have hc' : ¬ (c = ' ') := by
          intro he
          subst he
          simp [isWhitespace] at hw'
        rw [norm2_cons_word hw']
        have hwa : wordsAux isWhitespace (c :: r) acc =
            wordsAux isWhitespace r (c :: acc) := by
          simp [wordsAux, hw']
        rw [hwa, ih.1 (c :: acc) (by simp) hlr]
        have hsp : jsSplitChar ' ' (c :: norm2 true r) =
            (jsSplitChar ' ' (norm2 true r)).modifyHead (fun p => c :: p) := by
          simp [jsSplitChar, hc']
        rw [hsp, modifyHead_modifyHead]
        congr 1
        funext piece
        simp
    · intro hne hlast
      by_cases hw : isWhitespace c = true
      · have hr : r ≠ [] := by
          intro he
          subst he
          exact absurd (hlast c rfl) (by simp [hw])
        have hlr := lastNotWs_tail hlast hr
        rw [norm2_cons_ws hw, if_neg (by simp)]
        have hwa : wordsAux isWhitespace (c :: r) [] = wordsAux isWhitespace r [] := by
          simp [wordsAux, hw]
        rw [hwa]
        exact ih.2 hr hlr
      · have hw' : isWhitespace c = false := by
          revert hw; cases isWhitespace c <;> simp
        have hlr := lastNotWs_of_cons hlast
        have hc' : ¬ (c = ' ') := by
          intro he
          subst he
          simp [isWhitespace] at hw'
        rw [norm2_cons_word hw']
        have hwa : wordsAux isWhitespace (c :: r) [] = wordsAux isWhitespace r [c] := by
          simp [wordsAux, hw']
        rw [hwa, ih.1 [c] (by simp) hlr]
        have hsp : jsSplitChar ' ' (c :: norm2 true r) =
            (jsSplitChar ' ' (norm2 true r)).modifyHead (fun p => c :: p) := by
          simp [jsSplitChar, hc']
        rw [hsp]
        congr 1

/-- Refinement of the title parser: the source's normalize-then-split title
parsing is exactly the specification-style ASCII-whitespace tokenization. -/
theorem parseVehicleTitle_eq_ascii (s : String) : parseVehicleTitle s = parseVehicleTitleAscii s := by
  unfold parseVehicleTitle parseVehicleTitleAscii parseVehicleTitleTokens wordsP
  have hhead := jsTrim_head_not s.data
  have hlastJs := jsTrim_getLast_not s.data
  have hlt : lastNotWs (jsTrim s.data) := fun c hc => isWhitespace_le_jsTrim (hlastJs c hc)
  have hnorm : normalizeWhitespaceList (jsTrim s.data) = norm2 false (jsTrim s.data) := by
    rw [normalizeWhitespaceList, foldl_normalizeStep]
    have hfl : accFlag ([] : List Char) = false := rfl
    rw [hfl, List.nil_append]
    apply jsTrim_eq_self
    · intro c hc
      cases ht : jsTrim s.data with
      | nil => rw [ht] at hc; simp [norm2] at hc
      | cons d r =>
        have hd : isJsTrimWhitespace d = false := hhead d (by rw [ht]; rfl)
        rw [ht, norm2_cons_word (isWhitespace_le_jsTrim hd)] at hc
        simp at hc
        rw [← hc]
        exact hd
    · intro c hc
      rw [norm2_getLast? _ false hlt] at hc
      exact hlastJs c hc
  rw [hnorm]
  by_cases hte : jsTrim s.data = []
  · rw [hte]
    simp [norm2, wordsAux]
  · have hne : norm2 false (jsTrim s.data) ≠ [] := norm2_ne_nil _ hte hlt false
    rw [if_neg hne, ← (wordsAux_norm2_joint (jsTrim s.data)).2 hte hlt]

/-- Every token the tokenizer emits is non-empty. -/
theorem mem_wordsAux_ne_nil (p : Char → Bool) :
    ∀ (l : List Char) (acc w : List Char), w ∈ wordsAux p l acc → w ≠ [] := by
  intro l
  induction l with
  | nil =>
    intro acc w hw
    by_cases hacc : acc = []
    · simp [wordsAux, hacc] at hw
    · simp [wordsAux, hacc] at hw
      subst hw
      simp [hacc]
  | cons c r ih =>
    intro acc w hw
    by_cases hp : p c = true
    · by_cases hacc : acc = []
      · rw [wordsAux] at hw
        simp [hp, hacc] at hw
        exact ih [] w hw
      · rw [wordsAux] at hw
        simp [hp, hacc] at hw
        rcases hw with hw | hw
        · subst hw; simp [hacc]
        · exact ih [] w hw
    · have hp' : p c = false := by revert hp; cases p c <;> simp
      rw [wordsAux] at hw
      simp [hp'] at hw
      exact ih (c :: acc) w hw

/-- Joining a list of pieces whose first piece is non-empty yields a
non-empty list. -/
theorem intercalate_cons_ne_nil (sep w : List Char) (rest : List (List Char)) (hw : w ≠ []) :
    List.intercalate sep (w :: rest) ≠ [] := by
  cases rest with
  | nil => simpa [List.intercalate] using hw
  | cons r rs =>
    rw [List.intercalate]
    simp only [List.intersperse]
    cases w with
    | nil => exact absurd rfl hw
    | cons a t => simp

/-- A string built from a non-empty character list is not the empty string. -/
theorem stringMk_ne_empty {l : List Char} (h : l ≠ []) : String.mk l ≠ "" := by
  intro he
  apply h
  have := congrArg String.data he
  simpa using this

/-- Every successfully parsed title has a non-empty make and model. -/
theorem parseVehicleTitle_fields {s : String} {t : TitleData}
    (h : parseVehicleTitle s = some t) : t.make ≠ "" ∧ t.model ≠ "" := by
  rw [parseVehicleTitle_eq_ascii] at h
  unfold parseVehicleTitleAscii parseVehicleTitleTokens at h
  by_cases hlen : (wordsP isWhitespace (jsTrim s.data)).length < 3
  · rw [if_pos hlen] at h
    exact absurd h (by simp)
  · rw [if_neg hlen] at h
    have hlen3 : 3 ≤ (wordsP isWhitespace (jsTrim s.data)).length := Nat.le_of_not_lt hlen
    have hmk : t.make = String.mk ((wordsP isWhitespace (jsTrim s.data)).getD 1 []) := by
      rw [← Option.some_inj.mp h]
    have hmd : t.model =
        String.mk (List.intercalate [' '] ((wordsP isWhitespace (jsTrim s.data)).drop 2)) := by
      rw [← Option.some_inj.mp h]
    constructor
    · rw [hmk]
      apply stringMk_ne_empty
      have h1 : (1 : Nat) < (wordsP isWhitespace (jsTrim s.data)).length := by omega
      rw [List.getD_eq_getElem _ _ h1]
      exact mem_wordsAux_ne_nil isWhitespace _ _ _ (List.getElem_mem h1)
    · rw [hmd]
      apply stringMk_ne_empty
      have h2 : (2 : Nat) < (wordsP isWhitespace (jsTrim s.data)).length := by omega
      have hdrop : (wordsP isWhitespace (jsTrim s.data)).drop 2 =
          (wordsP isWhitespace (jsTrim s.data))[2] ::
            (wordsP isWhitespace (jsTrim s.data)).drop 3 := by
        rw [List.drop_eq_getElem_cons h2]
      rw [hdrop]
      apply intercalate_cons_ne_nil
      exact mem_wordsAux_ne_nil isWhitespace _ _ _ (List.getElem_mem h2)

/-- C4 (amended): every listing the parser emits has a non-empty make and a
non-empty model (the title had at least three tokens); the year field is the
raw `parseInt` of the first token and may be `NaN`. -/
theorem c4_emitted_invariant (element : VehicleElement) (vehicleId : String)
    (location : Location) (now : String) (v : ParsedVehicleData)
    (h : parseVehicleElement element vehicleId location now = some v) :
    v.make ≠ "" ∧ v.model ≠ "" := by
  unfold parseVehicleElement parseVehicleElementTry at h
  cases hym : element.ymmText with
  | none => rw [hym] at h; simp at h
  | some ymm =>
    rw [hym] at h
    cases htd : parseVehicleTitle ymm with
    | none => simp [htd] at h
    | some td =>
      simp only [htd] at h
      cases him : parseVehicleImagesCheerio element with
      | error e => simp [him] at h
      | ok images =>
        simp only [him, Option.some.injEq] at h
        have hfields := parseVehicleTitle_fields htd
        refine ⟨?_, ?_⟩
        · rw [← h]
          exact hfields.1
        · rw [← h]
          exact hfields.2

/-- The fan-out of `vehiclesRouter.search` never records a branch error:
every per-branch task settles with `ok` because `fetchVehicleInventoryInternal`
swallows every failure into an empty list. -/
theorem searchCollect_errors_nil (locations : List Location)
    (behavior : Location → Nat → RequestOutcome) (query now : String) :
    (searchCollect locations behavior query now).2 = [] := by
  induction locations with
  | nil => rfl
  | cons loc ls ih =>
    unfold searchCollect at ih ⊢
    rw [List.foldr_cons]
    unfold searchTaskResult
    exact ih

/-- C10: the search result is always a single complete snapshot: `page` is 1
and `hasMore` is false, for every branch list, upstream behaviour and
filter input. -/
theorem c10_single_snapshot (locations : List Location)
    (behavior : Location → Nat → RequestOutcome) (input : SearchFilters)
    (now : String) (elapsed : Nat) :
    (search locations behavior input now elapsed).page = 1 ∧
    (search locations behavior input now elapsed).hasMore = false :=
  ⟨rfl, rfl⟩

/-- C9: search bookkeeping: `totalCount` is the length of the returned list,
`locationsCovered` is the branch count minus the number of recorded branch
errors, and with no upstream failure `locationsWithErrors` is empty. -/
theorem c9_bookkeeping (locations : List Location)
    (behavior : Location → Nat → RequestOutcome) (input : SearchFilters)
    (now : String) (elapsed : Nat) :
    (search locations behavior input now elapsed).totalCount =
      (search locations behavior input now elapsed).vehicles.length ∧
    (search locations behavior input now elapsed).locationsCovered =
      locations.length -
        (search locations behavior input now elapsed).locationsWithErrors.length ∧
    (noUpstreamFailure locations behavior →
      (search locations behavior input now elapsed).locationsWithErrors = []) := by
  refine ⟨rfl, rfl, fun _ => ?_⟩
  exact searchCollect_errors_nil locations behavior input.query now

/-- Witness for C9 at a concrete one-branch search with a succeeding
upstream. -/
theorem c9_bookkeeping_witness :
    (search [locA] behaviorAllOk emptyFilters nowIso 5).totalCount =
      (search [locA] behaviorAllOk emptyFilters nowIso 5).vehicles.length ∧
    (search [locA] behaviorAllOk emptyFilters nowIso 5).locationsCovered =
      1 - (search [locA] behaviorAllOk emptyFilters nowIso 5).locationsWithErrors.length ∧
    (search [locA] behaviorAllOk emptyFilters nowIso 5).locationsWithErrors = [] := by
  have h := c9_bookkeeping [locA] behaviorAllOk emptyFilters nowIso 5
  exact ⟨h.1, h.2.1, h.2.2 (fun location _ k => rfl)⟩

/-- C1 evaluated at the failing input: with two branches of which exactly one
(code 1224) fails every attempt at the network layer, the result still
carries the other branch's records, but `locationsWithErrors` is `[]` (not
`["1224"]`) and `locationsCovered` is 2 (not 1), because
`fetchVehicleInventoryInternal` swallows the failure before the error
bookkeeping in `search` can see it. -/
theorem c1_failure_isolation_eval :
    (search [locA, locB] behaviorOneFailing emptyFilters nowIso 0).vehicles.map
        (fun v => (v.make, v.model, v.location.locationCode)) = [("HONDA", "CIVIC", "1223")] ∧
    (search [locA, locB] behaviorOneFailing emptyFilters nowIso 0).locationsWithErrors = [] ∧
    (search [locA, locB] behaviorOneFailing emptyFilters nowIso 0).locationsCovered = 2 := by
  refine ⟨by decide, by decide, by decide⟩

/-- C2 evaluated: a 4xx response is retried like any other error — the
`retry` callback returns `true` unconditionally — so an upstream that always
answers a client-error status exhausts all 3 attempts before surfacing the
client error; and an upstream answering 500, 500, 200 succeeds on the third
attempt. -/
theorem c2_retry_policy (status : Nat) (rows : List VehicleElement)
    (h4 : 400 ≤ status) (h5 : status < 500) :
    fetchWithRetry (fun _ => .response status rows) = (.error (.client status), 3) ∧
    fetchWithRetry upstream500TwiceThen200 = (.ok { status := 200, rows := [] }, 3) := by
  constructor
  · have hok : responseOk status = false := by
      simp [responseOk]
      omega
    have h45 : (400 ≤ status && status < 500) = true := by
      simp
      omega
    have hbody : ∀ k, fetchAttempt (fun _ => .response status rows) k =
        .error (.client status) := by
      intro k
      simp [fetchAttempt, hok, h45]
    show backOffAux _ _ 1 (SEARCH_CONFIG.MAX_RETRIES - 1) = _
    have h2 : SEARCH_CONFIG.MAX_RETRIES - 1 = 2 := rfl
    rw [h2]
    rw [backOffAux, hbody 1]
    rw [backOffAux, hbody 2]
    rw [backOffAux, hbody 3]
    simp
  · decide

/-- Witness for C2 at the concrete always-404 upstream. -/
theorem c2_retry_policy_witness :
    (400 ≤ 404 ∧ 404 < 500) ∧
    fetchWithRetry const404 = (.error (.client 404), 3) := by
  refine ⟨by decide, ?_⟩
  exact (c2_retry_policy 404 [] (by decide) (by decide)).1

/-- A failing attempt outcome makes the request body throw. -/
theorem fetchAttempt_error_of_fail (attempts : Nat → RequestOutcome) (k : Nat)
    (h : attemptSucceeds (attempts k) = false) :
    ∃ e, fetchAttempt attempts k = .error e := by
  cases ho : attempts k with
  | networkError => exact ⟨.network, by simp [fetchAttempt, ho]⟩
  | response status rows =>
    have hok : responseOk status = false := by
      rw [ho] at h
      simpa [attemptSucceeds] using h
    by_cases h45 : (400 ≤ status && status < 500) = true
    · exact ⟨.client status, by simp [fetchAttempt, ho, hok, h45]⟩
    · exact ⟨.server status, by simp [fetchAttempt, ho, hok, h45]⟩

/-- When every attempt throws, the retry loop surfaces an error. -/
theorem backOffAux_error (body : Nat → Except FetchError FetchResponse)
    (h : ∀ j, ∃ e, body j = .error e) :
    ∀ (left k : Nat), ∃ e, (backOffAux body (fun _ _ => true) k left).1 = .error e := by
  intro left
  induction left with
  | zero =>
    intro k
    obtain ⟨e, he⟩ := h k
    exact ⟨e, by rw [backOffAux, he]⟩
  | succ n ih =>
    intro k
    obtain ⟨e, he⟩ := h k
    rw [backOffAux, he]
    simpa using ih (k + 1)

/-- C8 (amended): the inter-request throttle delay is performed exactly on
the failure path: when every attempt of the branch fetch fails, the call
returns the empty list having performed the single `catch`-block delay; when
the first attempt succeeds, no inter-request delay is performed at all. -/
theorem c8_delay_failure_only (attempts : Nat → RequestOutcome) (location : Location)
    (searchQuery now : String) :
    ((∀ k, attemptSucceeds (attempts k) = false) →
      fetchVehicleInventoryInternal attempts location searchQuery now = ([], 1)) ∧
    (attemptSucceeds (attempts 1) = true →
      (fetchVehicleInventoryInternal attempts location searchQuery now).2 = 0) := by
  constructor
  · intro hfail
    obtain ⟨e, he⟩ := backOffAux_error (fetchAttempt attempts)
      (fun j => fetchAttempt_error_of_fail attempts j (hfail j)) (SEARCH_CONFIG.MAX_RETRIES - 1) 1
    unfold fetchVehicleInventoryInternal fetchVehicleInventoryTry fetchWithRetry
    rw [he]
  · intro hsucc
    cases ho : attempts 1 with
    | networkError =>
      rw [ho] at hsucc
      simp [attemptSucceeds] at hsucc
    | response status rows =>
      have hok : responseOk status = true := by
        rw [ho] at hsucc
        simpa [attemptSucceeds] using hsucc
      have hbody : fetchAttempt attempts 1 = .ok { status := status, rows := rows } := by
        simp [fetchAttempt, ho, hok]
      unfold fetchVehicleInventoryInternal fetchVehicleInventoryTry fetchWithRetry
      have h2 : SEARCH_CONFIG.MAX_RETRIES - 1 = 2 := rfl
      rw [h2, backOffAux, hbody]
      simp [hok]

/-- Witness for C8: a concrete always-failing branch performs the delay once,
and a concrete succeeding branch performs no delay. -/
theorem c8_delay_failure_only_witness :
    fetchVehicleInventoryInternal (fun _ => .networkError) locB "" nowIso = ([], 1) ∧
    (fetchVehicleInventoryInternal (fun _ => .response 200 [elemCivic]) locB "" nowIso).2 = 0 := by
  constructor
  · exact (c8_delay_failure_only (fun _ => .networkError) locB "" nowIso).1 (fun k => rfl)
  · exact (c8_delay_failure_only (fun _ => .response 200 [elemCivic]) locB "" nowIso).2 rfl

/-- Counterexample for C8 as stated: on the success path the fetch performs
zero inter-request delays (the claim requires the delay after success as
well), while the failure path performs one. -/
theorem c8_no_delay_on_success_counterexample :
    fetchVehicleInventoryInternal (fun _ => .response 200 [elemCivic]) locA "" nowIso =
      ([civicParsed], 0) ∧
    fetchVehicleInventoryInternal (fun _ => .networkError) locA "" nowIso = ([], 1) := by
  exact ⟨by decide, by decide⟩

/-- Counterexample for C5 as stated: with an expired cached snapshot present
and a failing upstream fetch, `getAll` returns the built-in fallback list,
not the last good cached snapshot. -/
theorem c5_expired_snapshot_counterexample :
    (locationsGetAll { locationsCache := some [locOther], lastFetchTime := 0 }
      CACHE_DURATION .networkError).1 = getMockLocations ∧
    getMockLocations ≠ [locOther] := by
  exact ⟨by decide, by decide⟩

/-- C5 (amended): the directory list operation never throws (it is total);
a cached snapshot younger than 24h is returned as-is; otherwise on a fetch
or parse failure the built-in fallback list is returned — the expired
snapshot is not consulted — and the fallback contains at least one branch. -/
theorem c5_directory_availability (state : LocationsCacheState) (now : Int)
    (upstream : DirectoryUpstream) :
    (∀ cached, state.locationsCache = some cached →
      now - state.lastFetchTime < CACHE_DURATION →
      (locationsGetAll state now upstream).1 = cached) ∧
    ((state.locationsCache = none ∨ ¬ now - state.lastFetchTime < CACHE_DURATION) →
      fetchLocationsTry upstream = .error () →
      (locationsGetAll state now upstream).1 = getMockLocations) ∧
    1 ≤ getMockLocations.length := by
  refine ⟨?_, ?_, by decide⟩
  · intro cached hc hfresh
    unfold locationsGetAll
    rw [hc]
    simp [hfresh]
  · intro hstale hfail
    unfold locationsGetAll
    cases hc : state.locationsCache with
    | none => simp [fetchLocationsFromLKQ, hfail]
    | some cached =>
      rcases hstale with h | h
      · rw [hc] at h
        exact absurd h (by simp)
      · simp [h, fetchLocationsFromLKQ, hfail]

/-- Witness for C5: a fresh snapshot is returned as cached; an empty cache
with a failing upstream yields the fallback. -/
theorem c5_directory_availability_witness :
    (locationsGetAll { locationsCache := some [locOther], lastFetchTime := 5 }
      6 .networkError).1 = [locOther] ∧
    (locationsGetAll { locationsCache := none, lastFetchTime := 0 }
      0 .networkError).1 = getMockLocations ∧
    1 ≤ getMockLocations.length := by
  refine ⟨?_, ?_, ?_⟩
  · exact (c5_directory_availability _ _ _).1 [locOther] rfl (by decide)
  · exact (c5_directory_availability _ _ _).2.1 (Or.inl rfl) rfl
  · exact (c5_directory_availability { locationsCache := none, lastFetchTime := 0 }
      0 .networkError).2.2

/-- C6 (amended): with only a year range supplied, the filter keeps exactly
the records whose year is an integer within `[min, max]` together with every
record whose year is `NaN` (JavaScript comparisons against `NaN` are false,
so such records never fail the range test); consequently an inverted range
keeps exactly the `NaN`-year records rather than nothing. -/
theorem c6_year_range_filter (vehicles : List Vehicle) (minYear maxYear : Int) :
    filterVehicles vehicles (yearOnlyFilters minYear maxYear) =
      vehicles.filter (fun v =>
        match v.year with
        | some y => decide (minYear ≤ y ∧ y ≤ maxYear)
        | none => true) ∧
    (maxYear < minYear →
      filterVehicles vehicles (yearOnlyFilters minYear maxYear) =
        vehicles.filter (fun v => decide (v.year = none))) := by
  have hmain : filterVehicles vehicles (yearOnlyFilters minYear maxYear) =
      vehicles.filter (fun v =>
        match v.year with
        | some y => decide (minYear ≤ y ∧ y ≤ maxYear)
        | none => true) := by
    unfold filterVehicles
    apply List.filter_congr
    intro v _
    unfold vehiclePasses yearOnlyFilters emptyFilters
    cases hy : v.year with
    | none => simp [hy]
    | some y =>
      by_cases hin : minYear ≤ y ∧ y ≤ maxYear
      · simp [hy, hin]
      · simp [hy, hin]
        omega
  refine ⟨hmain, ?_⟩
  intro hinv
  rw [hmain]
  apply List.filter_congr
  intro v _
  cases hy : v.year with
  | none => simp [hy]
  | some y =>
    simp [hy]
    omega

/-- Counterexample for C6 as stated: a record whose year is `NaN` is kept by
the year-range filter even though `NaN` satisfies no range, and with an
inverted range the result is not empty. -/
theorem c6_nan_year_counterexample :
    filterVehicles [mkVehicle none] (yearOnlyFilters 2016 2020) = [mkVehicle none] ∧
    claimYearKeep 2016 2020 (mkVehicle none) = false ∧
    filterVehicles [mkVehicle none] (yearOnlyFilters 2020 2016) ≠ [] := by
  exact ⟨by decide, by decide, by decide⟩

/-- Witness for C6: records with years 2015, 2018, 2021 filtered by
[2016, 2020] yield exactly the 2018 record, and an inverted range on the
same integer-year records yields the empty list. -/
theorem c6_year_range_filter_witness :
    filterVehicles [mkVehicle (some 2015), mkVehicle (some 2018), mkVehicle (some 2021)]
      (yearOnlyFilters 2016 2020) = [mkVehicle (some 2018)] ∧
    filterVehicles [mkVehicle (some 2015), mkVehicle (some 2018), mkVehicle (some 2021)]
      (yearOnlyFilters 2020 2016) = [] := by
  constructor
  · rw [(c6_year_range_filter
      [mkVehicle (some 2015), mkVehicle (some 2018), mkVehicle (some 2021)] 2016 2020).1]
    decide
  · rw [(c6_year_range_filter
      [mkVehicle (some 2015), mkVehicle (some 2018), mkVehicle (some 2021)] 2020 2016).2
      (by decide)]
    decide

/-- C3 (amended): title parsing is exactly ASCII-whitespace-run tokenization
of the trimmed title with a three-token minimum (non-breaking spaces do not
separate tokens; JavaScript `trim` still strips them at the ends), and the
concrete examples behave as specified. -/
theorem c3_title_parsing :
    (∀ s : String, parseVehicleTitle s = parseVehicleTitleAscii s) ∧
    parseVehicleTitle "2018  HONDA   CIVIC" =
      some { year := some 2018, make := "HONDA", model := "CIVIC" } ∧
    parseVehicleTitle "HONDA CIVIC" = none :=
  ⟨parseVehicleTitle_eq_ascii, by decide, by decide⟩

/-- Counterexample for C3 as stated: with a non-breaking space as the only
separator between year and make, the parser discards the listing, whereas
the claimed tokenization (non-breaking variants normalized too) parses it. -/
theorem c3_nbsp_counterexample :
    parseVehicleTitle "2018\u00A0HONDA CIVIC" = none ∧
    parseVehicleTitleNbsp "2018\u00A0HONDA CIVIC" =
      some { year := some 2018, make := "HONDA", model := "CIVIC" } := by
  exact ⟨by decide, by decide⟩

/-- Counterexample for C4 as stated: a title whose first token is not
numeric is emitted with a `NaN` year — the year is not "present" as a valid
integer, yet the listing is not discarded. -/
theorem c4_nan_year_counterexample :
    (parseVehicleElement elemFooTitle "vehicle-2" locA nowIso).map
      (fun v => (v.year, v.make, v.model)) = some (none, "HONDA", "CIVIC") := by
  decide

/-- Witness for C4 at a concrete well-formed element. -/
theorem c4_emitted_invariant_witness :
    parseVehicleElement elemCivic "vehicle-1" locA nowIso = some civicParsed ∧
    civicParsed.make ≠ "" ∧ civicParsed.model ≠ "" := by
  have h : parseVehicleElement elemCivic "vehicle-1" locA nowIso = some civicParsed := by
    decide
  exact ⟨h, c4_emitted_invariant elemCivic "vehicle-1" locA nowIso civicParsed h⟩
